import Mathlib

/-!
Shallow embedding of `src/convert_xcs_to_svg.py`, a script converting an
xTool Creative Space design file (JSON) into SVG documents.

Conventions of the embedding:
* Python floats are modelled as elements of a linear ordered field with a
  floor function: `ℚ` in executable statements and witnesses, `ℝ` where the
  constant `math.pi` matters (the constant is threaded as a parameter `piV`
  and instantiated with `Real.pi` there).
* A Python dict field that the code reads with `d.get(key, default)` is an
  `Option` field; the accessor applying the default mirrors the `get` call.
* Emitted SVG markup is modelled structurally: one constructor per element
  kind, one field per emitted attribute, `Option` fields for attributes
  that are emitted conditionally (`none` = attribute absent). The empty
  string returned by a renderer ("this shape contributes nothing") is
  modelled as `none` at the dispatch level.
* Python `sorted` with a key is a stable ascending sort; it is modelled by
  insertion sort, which is stable and extensionally the same function.
-/

namespace XcsToSvg

/-- A value in the `color` slot as classified by `int_color_to_hex`:
a Python str, int, float, or anything else (None, dict, ...). -/
inductive ColorVal (α : Type) where
  | str (s : String)
  | int (n : Int)
  | float (q : α)
  | other
deriving DecidableEq

/-- Lowercase hex digit character for `n < 16`, as produced by Python
`f"{r:02x}"` formatting (48 = `0`, 87 + 10 = 97 = `a`). -/
def hexDigit (n : Nat) : Char :=
  if n < 10 then Char.ofNat (48 + n) else Char.ofNat (87 + n)

/-- Two-digit lowercase hex rendering of a byte, Python `f"{r:02x}"`. -/
def byteToHex (n : Nat) : List Char :=
  [hexDigit (n / 16), hexDigit (n % 16)]

/-- Numeric value of a decimal digit character, `none` otherwise. -/
def digitVal (c : Char) : Option Nat :=
  if 48 ≤ c.toNat ∧ c.toNat ≤ 57 then some (c.toNat - 48) else none

/-- Accumulating decimal parse; fails on the first non-digit. -/
def parseDigitsAux : List Char → Nat → Option Nat
  | [], acc => some acc
  | c :: cs, acc =>
    match digitVal c with
    | some d => parseDigitsAux cs (acc * 10 + d)
    | none => none

/-- Model of Python `int(s)` on a string: an optional sign followed by a
non-empty run of decimal digits (whitespace/underscore tolerance of the
Python parser is not modelled; no claim depends on it). -/
def parseIntStr (s : String) : Option Int :=
  match s.data with
  | [] => none
  | '-' :: rest =>
    if rest = [] then none else (parseDigitsAux rest 0).map (fun n => -(n : Int))
  | '+' :: rest =>
    if rest = [] then none else (parseDigitsAux rest 0).map (fun n => (n : Int))
  | l => (parseDigitsAux l 0).map (fun n => (n : Int))

/-- Python `int()` applied to a float: truncation toward zero. -/
def truncToInt {α : Type} [LinearOrderedField α] [FloorRing α] (q : α) : Int :=
  if q < 0 then ⌈q⌉ else ⌊q⌋

/-- The six hex characters of `#RRGGBB` for an integer color. Python's
`>>` and `&` on ints are arithmetic shifts and two's-complement masking,
which for the masks used coincide with floor division (`Int.fdiv`) and
Euclidean remainder (`Int.emod`). -/
def intToHexChars (n : Int) : List Char :=
  byteToHex ((n.fdiv 65536).emod 256).toNat ++
    byteToHex ((n.fdiv 256).emod 256).toNat ++
    byteToHex (n.emod 256).toNat

/-- Python `s.startswith("#")`. -/
def startsWithHash (s : String) : Bool :=
  match s.data with
  | c :: _ => c = '#'
  | [] => false

/-- Embedding of `int_color_to_hex` (lines 9-24): a `#`-string passes
through, a numeric string is re-parsed as an int, an int/float is packed
`0xRRGGBB` and formatted, anything else falls to black. -/
def int_color_to_hex {α : Type} [LinearOrderedField α] [FloorRing α]
    (c : ColorVal α) : String :=
  match c with
  | .str s =>
    if startsWithHash s then s
    else
      match parseIntStr s with
      | some n => ⟨'#' :: intToHexChars n⟩
      | none => s
  | .int n => ⟨'#' :: intToHexChars n⟩
  | .float q => ⟨'#' :: intToHexChars (truncToInt q)⟩
  | .other => "#000000"

/-- Numeric value of a hex digit character (either case), used for the
re-parsing direction of the round-trip property. -/
def hexVal (c : Char) : Option Nat :=
  if 48 ≤ c.toNat ∧ c.toNat ≤ 57 then some (c.toNat - 48)
  else if 97 ≤ c.toNat ∧ c.toNat ≤ 102 then some (c.toNat - 87)
  else if 65 ≤ c.toNat ∧ c.toNat ≤ 70 then some (c.toNat - 55)
  else none

/-- Accumulating base-16 parse; fails on a non-hex-digit character. -/
def parseHexAux : List Char → Nat → Option Nat
  | [], acc => some acc
  | c :: cs, acc =>
    match hexVal c with
    | some d => parseHexAux cs (acc * 16 + d)
    | none => none

/-- Base-16 parse of a non-empty digit string, Python `int(s, 16)`. -/
def parseHexDigits (l : List Char) : Option Nat :=
  if l = [] then none else parseHexAux l 0

/-- The `scale` sub-dict of a Display. -/
structure ScaleRec (α : Type) where
  x : Option α := none
  y : Option α := none
deriving DecidableEq

/-- The `endPoint` sub-dict of a line Display. -/
structure PointRec (α : Type) where
  x : Option α := none
  y : Option α := none
deriving DecidableEq

/-- The `fill` sub-dict of a Display. -/
structure FillRec (α : Type) where
  visible : Option Bool := none
  color : Option (ColorVal α) := none
  alpha : Option α := none
deriving DecidableEq

/-- The `stroke` sub-dict of a Display. -/
structure StrokeRec (α : Type) where
  visible : Option Bool := none
  color : Option (ColorVal α) := none
  alpha : Option α := none
  width : Option α := none
  cap : Option String := none
  join : Option String := none
deriving DecidableEq

/-- The `style` sub-dict of a text Display. -/
structure StyleRec (α : Type) where
  fontSize : Option α := none
  fontFamily : Option String := none
deriving DecidableEq

/-- One display object (a shape instance); every field the script reads
with a `.get` default is an `Option`, `none` meaning the key is absent. -/
structure Display (α : Type) where
  type : Option String := none
  visible : Option Bool := none
  x : Option α := none
  y : Option α := none
  angle : Option α := none
  scale : Option (ScaleRec α) := none
  zOrder : Option Int := none
  fill : Option (FillRec α) := none
  stroke : Option (StrokeRec α) := none
  dPath : Option String := none
  fillRule : Option String := none
  width : Option α := none
  height : Option α := none
  radius : Option α := none
  endPoint : Option (PointRec α) := none
  base64 : Option String := none
  text : Option String := none
  style : Option (StyleRec α) := none
deriving DecidableEq

section Defs

variable {α : Type} [LinearOrderedField α] [FloorRing α]

/-- Python `d.get("visible", True)`: only an explicit false hides. -/
def Display.getVisible (d : Display α) : Bool := d.visible.getD true

/-- Python `d.get("x", 0)`. -/
def Display.getX (d : Display α) : α := d.x.getD 0

/-- Python `d.get("y", 0)`. -/
def Display.getY (d : Display α) : α := d.y.getD 0

/-- Python `d.get("angle", 0)`. -/
def Display.getAngle (d : Display α) : α := d.angle.getD 0

/-- Python `d.get("scale", {}).get("x", 1)`. -/
def Display.getSx (d : Display α) : α := (d.scale.getD {}).x.getD 1

/-- Python `d.get("scale", {}).get("y", 1)`. -/
def Display.getSy (d : Display α) : α := (d.scale.getD {}).y.getD 1

/-- Python `d.get("zOrder", 0)`, the sort key of the canvas loop. -/
def Display.getZOrder (d : Display α) : Int := d.zOrder.getD 0

/-- Python `d.get("type", "")`, the dispatch tag of the canvas loop. -/
def Display.getType (d : Display α) : String := d.type.getD ""

/-- Python `d.get("width", 0)`. -/
def Display.getWidth (d : Display α) : α := d.width.getD 0

/-- Python `d.get("height", 0)`. -/
def Display.getHeight (d : Display α) : α := d.height.getD 0

/-- Python `d.get("radius", 0)`. -/
def Display.getRadius (d : Display α) : α := d.radius.getD 0

/-- Embedding of `get_fill_color` (lines 26-36). The source's `alpha < 1`
branch returns the same hex string as the fall-through, so the embedding
is the single conditional on visibility. -/
def get_fill_color (d : Display α) : String :=
  let fill := d.fill.getD {}
  if fill.visible.getD false then int_color_to_hex (fill.color.getD (.int 0))
  else "none"

/-- The structured stroke bundle returned by `get_stroke_props`. -/
structure StrokeProps (α : Type) where
  color : String
  width : α
  alpha : α
  cap : String
  join : String
deriving DecidableEq

/-- Embedding of `get_stroke_props` (lines 38-54): `none` when the stroke
sub-dict is absent or not visible, otherwise the defaulted bundle. -/
def get_stroke_props (d : Display α) : Option (StrokeProps α) :=
  let s := d.stroke.getD {}
  if s.visible.getD false then
    some { color := int_color_to_hex (s.color.getD (.int 0)),
           width := s.width.getD 1,
           alpha := s.alpha.getD 1,
           cap := s.cap.getD "butt",
           join := s.join.getD "miter" }
  else none

/-- One component of the SVG `transform` attribute string; the full
attribute is the space-joined list. -/
inductive TPart (α : Type) where
  | translate (x y : α)
  | rotate (deg : α)
  | scale (sx sy : α)
deriving DecidableEq

/-- Embedding of `build_transform` (lines 56-77). `piV` stands for the
constant `math.pi`. The conditionally-overwritten first assignment to
`angle_deg` inside the rotation branch is dead (the next line assigns
unconditionally), so the effective conversion is always
`angle * 180 / pi`. -/
def build_transform (piV : α) (d : Display α) : List (TPart α) :=
  let base := [TPart.translate d.getX d.getY]
  let withRot :=
    if d.getAngle ≠ 0 then base ++ [TPart.rotate (d.getAngle * 180 / piV)]
    else base
  if d.getSx ≠ 1 ∨ d.getSy ≠ 1 then withRot ++ [TPart.scale d.getSx d.getSy]
  else withRot

/-- Structural model of the emitted SVG elements, one constructor per
element kind, one field per emitted attribute. `Option` fields are
attributes emitted conditionally (`none` = absent): `radius` models the
`rx`/`ry` pair, the opacity fields model `stroke-opacity`/`fill-opacity`. -/
inductive Elem (α : Type) where
  | path (transform : List (TPart α)) (d : String) (fill : String)
      (fillRule : String) (stroke : Option (StrokeProps α))
      (strokeOpacity : Option α) (fillOpacity : Option α)
  | rect (transform : List (TPart α)) (x y width height : α)
      (radius : Option α) (fill : String) (stroke : Option (StrokeProps α))
  | line (transform : List (TPart α)) (x1 y1 x2 y2 : α)
      (strokeColor : String) (strokeWidth : α)
  | image (transform : List (TPart α)) (x y width height : α) (href : String)
  | text (transform : List (TPart α)) (fontSize : α) (fontFamily : String)
      (fill : String) (content : String)
deriving DecidableEq

/-- Embedding of `render_path` (lines 79-109); `none` is the empty string
returned for an empty `dPath`. -/
def render_path (piV : α) (d : Display α) : Option (Elem α) :=
  if d.dPath.getD "" = "" then none
  else
    let sp := get_stroke_props d
    let fillObj := d.fill.getD {}
    some (.path (build_transform piV d) (d.dPath.getD "") (get_fill_color d)
      (d.fillRule.getD "nonzero") sp
      (match sp with
       | some p => if p.alpha < 1 then some p.alpha else none
       | none => none)
      (if fillObj.alpha.getD 1 < 1 then some (fillObj.alpha.getD 1) else none))

/-- Embedding of `render_rect` (lines 111-132): corner at `(-w/2, -h/2)`,
`rx`/`ry` emitted only for a positive radius. -/
def render_rect (piV : α) (d : Display α) : Elem α :=
  Elem.rect (build_transform piV d) (-d.getWidth / 2) (-d.getHeight / 2)
    d.getWidth d.getHeight
    (if d.getRadius > 0 then some d.getRadius else none)
    (get_fill_color d) (get_stroke_props d)

/-- Embedding of `render_line` (lines 134-150): endpoint from the
`endPoint` sub-dict, a default black unit stroke substituted when
`get_stroke_props` yields nothing. -/
def render_line (piV : α) (d : Display α) : Elem α :=
  let ep := d.endPoint.getD {}
  let sp := (get_stroke_props d).getD
    { color := "#000000", width := 1, alpha := 1, cap := "butt", join := "miter" }
  Elem.line (build_transform piV d) 0 0 (ep.x.getD 0) (ep.y.getD 0)
    sp.color sp.width

/-- Embedding of `render_bitmap` (lines 152-162); `none` is the empty
string returned for an empty base64 payload. -/
def render_bitmap (piV : α) (d : Display α) : Option (Elem α) :=
  if d.base64.getD "" = "" then none
  else
    some (.image (build_transform piV d) (-d.getWidth / 2) (-d.getHeight / 2)
      d.getWidth d.getHeight (d.base64.getD ""))

/-- Embedding of `render_text` (lines 164-184). -/
def render_text (piV : α) (d : Display α) : Elem α :=
  let st := d.style.getD {}
  Elem.text (build_transform piV d) (st.fontSize.getD 12)
    (st.fontFamily.getD "sans-serif") (get_fill_color d) (d.text.getD "")

/-- The per-kind dispatch of the canvas loop (lines 236-249): `some` is a
rendered element, `none` means the shape contributes nothing (empty
renderer output, or an unrecognized kind hitting the `continue`). -/
def renderByType (piV : α) (d : Display α) : Option (Elem α) :=
  if d.getType = "PATH" then render_path piV d
  else if d.getType = "RECT" then some (render_rect piV d)
  else if d.getType = "LINE" then some (render_line piV d)
  else if d.getType = "BITMAP" then render_bitmap piV d
  else if d.getType = "TEXT" then some (render_text piV d)
  else none

/-- The element collection loop of `convert_canvas_to_svg` (lines 231-253):
skip invisible Displays; render each remaining one; a shape whose renderer
raises is caught by the `except` arm and skipped; a shape rendering to
nothing is skipped. The renderer is a parameter of type
`Display α → Except String (Option (Elem α))` so that the exception path
is expressible; the concrete pipeline instantiates it with the total
dispatch `renderByType` wrapped in `Except.ok`. -/
def collectElements (render : Display α → Except String (Option (Elem α))) :
    List (Display α) → List (Elem α)
  | [] => []
  | d :: ds =>
    if d.getVisible then
      match render d with
      | .ok (some el) => el :: collectElements render ds
      | .ok none => collectElements render ds
      | .error _ => collectElements render ds
    else collectElements render ds

/-- Conservative half-width of a Display, `w * |sx| / 2 + 1` (line 209). -/
def halfW (d : Display α) : α := d.getWidth * |d.getSx| / 2 + 1

/-- Conservative half-height of a Display, `h * |sy| / 2 + 1` (line 210). -/
def halfH (d : Display α) : α := d.getHeight * |d.getSy| / 2 + 1

/-- The bounding-box update applied for one visible Display once a first
visible Display has been seen (the running min/max of lines 211-214). -/
def bboxUpd (q : α × α × α × α) (d : Display α) : α × α × α × α :=
  (min q.1 (d.getX - halfW d), min q.2.1 (d.getY - halfH d),
   max q.2.2.1 (d.getX + halfW d), max q.2.2.2 (d.getY + halfH d))

/-- The bounding-box update for one visible Display: `none` models the
initial infinities, so the first visible Display installs its own extents
(min and max against an infinity select the finite value). -/
def bboxCore (s : Option (α × α × α × α)) (d : Display α) :
    Option (α × α × α × α) :=
  match s with
  | none => some (d.getX - halfW d, d.getY - halfH d,
                  d.getX + halfW d, d.getY + halfH d)
  | some q => some (bboxUpd q d)

/-- One iteration of the bounding-box loop (lines 198-214): invisible
Displays are skipped. -/
def bboxStep (s : Option (α × α × α × α)) (d : Display α) :
    Option (α × α × α × α) :=
  if d.getVisible then bboxCore s d else s

/-- The whole bounding-box scan (lines 192-214): `none` corresponds to
`min_x` remaining at infinity, i.e. no visible Display. -/
def computeBBox (ds : List (Display α)) : Option (α × α × α × α) :=
  ds.foldl bboxStep none

/-- Python `sorted(displays, key=lambda d: d.get("zOrder", 0))` (line 229):
a stable ascending sort by `zOrder`, modelled by insertion sort. -/
def sortDisplays (ds : List (Display α)) : List (Display α) :=
  ds.insertionSort (fun a b => a.getZOrder ≤ b.getZOrder)

/-- One canvas: a title and its ordered displays (absent keys default to
`"untitled"` and `[]` at the use sites, as in the script). -/
structure Canvas (α : Type) where
  title : Option String := none
  displays : List (Display α) := []
deriving DecidableEq

/-- The assembled SVG document for one canvas: the `viewBox` numbers, the
title annotation and the element list, in emission order. -/
structure SvgDoc (α : Type) where
  minX : α
  minY : α
  viewW : α
  viewH : α
  canvasIndex : Nat
  title : String
  elements : List (Elem α)
deriving DecidableEq

/-- Embedding of `convert_canvas_to_svg` (lines 186-271): `none` is the
Python `None` return (empty display list, no visible Display, or zero
elements produced); otherwise the document with the padded viewport. -/
def convert_canvas_to_svg (piV : α) (canvas : Canvas α) (canvasIndex : Nat) :
    Option (SvgDoc α) :=
  let displays := canvas.displays
  if displays.isEmpty then none
  else
    match computeBBox displays with
    | none => none
    | some (mnx, mny, mxx, mxy) =>
      let elements :=
        collectElements (fun d => .ok (renderByType piV d)) (sortDisplays displays)
      if elements.isEmpty then none
      else
        some { minX := mnx - 2, minY := mny - 2,
               viewW := mxx + 2 - (mnx - 2), viewH := mxy + 2 - (mny - 2),
               canvasIndex := canvasIndex,
               title := canvas.title.getD "untitled",
               elements := elements }

/-- A 10 by 4 rectangle Display at position (5, 5), no rotation or scale. -/
def rectExample : Display ℚ :=
  { type := some "RECT", x := some 5, y := some 5,
    width := some 10, height := some 4 }

/-- A line Display with endpoint (7, 8) and no stroke sub-dict. -/
def lineExample : Display ℚ :=
  { type := some "LINE", endPoint := some { x := some 7, y := some 8 } }

/-- A Display with explicit zOrder 5. -/
def dz5 : Display ℚ := { zOrder := some 5 }

/-- A Display with explicit zOrder 1. -/
def dz1 : Display ℚ := { zOrder := some 1 }

/-- A Display with the zOrder key absent. -/
def dzNone : Display ℚ := { }

/-- A Display of an unrecognized kind. -/
def unknownExample : Display ℚ := { type := some "CIRCLE" }

/-- A canvas whose only Display is explicitly invisible. -/
def cInvis : Canvas ℚ :=
  { displays := [{ visible := some false, type := some "RECT" }] }

/-- A canvas whose only Display is `rectExample`. -/
def cOne : Canvas ℚ := { displays := [rectExample] }

/-- The document `convert_canvas_to_svg` produces for `cOne`: extents
5 ± (10/2 + 1) and 5 ± (4/2 + 1) give box (-1, 2, 11, 8), padded by 2. -/
def docOne : SvgDoc ℚ :=
  { minX := -3, minY := 0, viewW := 16, viewH := 10, canvasIndex := 0,
    title := "untitled",
    elements := [Elem.rect [TPart.translate 5 5] (-5) (-2) 10 4 none "none" none] }

end Defs

section ColorProofs

lemma hexVal_hexDigit : ∀ n : Nat, n < 16 → hexVal (hexDigit n) = some n := by
  decide

lemma parseHexAux_byteToHex (n acc : Nat) (rest : List Char) (h : n < 256) :
    parseHexAux (byteToHex n ++ rest) acc = parseHexAux rest (acc * 256 + n) := by
  have h1 : hexVal (hexDigit (n / 16)) = some (n / 16) := hexVal_hexDigit _ (by omega)
  have h2 : hexVal (hexDigit (n % 16)) = some (n % 16) := hexVal_hexDigit _ (by omega)
  have harith : acc * 16 + n / 16 = acc * 16 + n / 16 := rfl
  simp only [byteToHex, List.cons_append, List.nil_append, parseHexAux, h1, h2]
  congr 1
  omega

lemma intToHexChars_natCast (c : Nat) :
    intToHexChars (c : Int) =
      byteToHex (c / 65536 % 256) ++ byteToHex (c / 256 % 256) ++
        byteToHex (c % 256) := by
  have e1 : (((c : Int).fdiv 65536).emod 256).toNat = c / 65536 % 256 := by
    rw [Int.fdiv_eq_ediv _ (by norm_num)]
    change (((c : Int) / 65536) % 256).toNat = _
    omega
  have e2 : (((c : Int).fdiv 256).emod 256).toNat = c / 256 % 256 := by
    rw [Int.fdiv_eq_ediv _ (by norm_num)]
    change (((c : Int) / 256) % 256).toNat = _
    omega
  have e3 : ((c : Int).emod 256).toNat = c % 256 := by
    change ((c : Int) % 256).toNat = _
    omega
  rw [intToHexChars, e1, e2, e3]

/-- C1: for every integer color `c` in `[0, 0xFFFFFF]`, `int_color_to_hex`
yields a pound sign followed by six hex digits, and re-parsing those six
digits in base 16 gives back exactly `c`. -/
theorem color_int_roundtrip (c : Nat) (h : c ≤ 0xFFFFFF) :
    ∃ ds : List Char,
      (int_color_to_hex (α := ℚ) (ColorVal.int (c : Int))).data = '#' :: ds ∧
        ds.length = 6 ∧ parseHexDigits ds = some c := by
  refine ⟨intToHexChars (c : Int), rfl, ?_, ?_⟩
  · simp [intToHexChars, byteToHex]
  · rw [intToHexChars_natCast, parseHexDigits,
      if_neg (by simp [byteToHex]), List.append_assoc,
      parseHexAux_byteToHex _ _ _ (Nat.mod_lt _ (by norm_num)),
      parseHexAux_byteToHex _ _ _ (Nat.mod_lt _ (by norm_num)),
      ← List.append_nil (byteToHex (c % 256)),
      parseHexAux_byteToHex _ _ _ (Nat.mod_lt _ (by norm_num))]
    simp only [parseHexAux, Option.some.injEq]
    omega

/-- Witness for C1 at the color 16421416 from the source docstring. -/
theorem color_int_roundtrip_witness :
    ∃ ds : List Char,
      (int_color_to_hex (α := ℚ)
          (ColorVal.int ((16421416 : Nat) : Int))).data = '#' :: ds ∧
        ds.length = 6 ∧ parseHexDigits ds = some 16421416 :=
  color_int_roundtrip 16421416 (by norm_num)

/-- C8: how `int_color_to_hex` treats each class of input: a string with a
leading pound sign passes through unchanged; a string parseable as an
integer resolves like that integer; an unparseable non-numeric string is
returned verbatim; a non-numeric non-string input yields black. The
function is total by construction (it returns a `String` on every
`ColorVal`), matching the never-fails clause. -/
theorem color_resolution_cases :
    (∀ s : String, startsWithHash s = true →
        int_color_to_hex (α := ℚ) (ColorVal.str s) = s) ∧
    (∀ (s : String) (n : Int), startsWithHash s = false → parseIntStr s = some n →
        int_color_to_hex (α := ℚ) (ColorVal.str s) =
          int_color_to_hex (α := ℚ) (ColorVal.int n)) ∧
    (∀ s : String, startsWithHash s = false → parseIntStr s = none →
        int_color_to_hex (α := ℚ) (ColorVal.str s) = s) ∧
    int_color_to_hex (α := ℚ) ColorVal.other = "#000000" := by
  refine ⟨?_, ?_, ?_, rfl⟩
  · intro s hs
    simp [int_color_to_hex, hs]
  · intro s n hs hp
    simp [int_color_to_hex, hs, hp]
  · intro s hs hp
    simp [int_color_to_hex, hs, hp]

/-- Witness for C8 on the three string classes. -/
theorem color_resolution_cases_witness :
    int_color_to_hex (α := ℚ) (ColorVal.str "#ff0000") = "#ff0000" ∧
    int_color_to_hex (α := ℚ) (ColorVal.str "16421416") =
      int_color_to_hex (α := ℚ) (ColorVal.int 16421416) ∧
    int_color_to_hex (α := ℚ) (ColorVal.str "red") = "red" :=
  ⟨color_resolution_cases.1 "#ff0000" (by decide),
    color_resolution_cases.2.1 "16421416" 16421416 (by decide) (by decide),
    color_resolution_cases.2.2.1 "red" (by decide) (by decide)⟩

end ColorProofs

section TransformProofs

lemma build_transform_eq {α : Type} [LinearOrderedField α] (piV : α)
    (d : Display α) :
    build_transform piV d =
      [TPart.translate d.getX d.getY] ++
        (if d.getAngle = 0 then []
         else [TPart.rotate (d.getAngle * 180 / piV)]) ++
        (if d.getSx = 1 ∧ d.getSy = 1 then []
         else [TPart.scale d.getSx d.getSy]) := by
  rw [build_transform]
  by_cases ha : d.getAngle = 0 <;> by_cases hs : d.getSx = 1 ∧ d.getSy = 1 <;>
    simp [ha, hs, not_and_or]

/-- C2: the composed transform always starts with the translation by
(x, y); a rotation appears exactly when the angle is nonzero, its value
being the angle converted from radians to degrees; a scale by (sx, sy)
appears exactly when (sx, sy) differs from (1, 1); the textual order is
translate, rotate, scale. In particular an angle of pi over two radians
gives a 90-degree rotation after the translation and before any scale. -/
theorem transform_order :
    (∀ d : Display ℝ,
        build_transform Real.pi d =
          [TPart.translate d.getX d.getY] ++
            (if d.getAngle = 0 then []
             else [TPart.rotate (d.getAngle * 180 / Real.pi)]) ++
            (if d.getSx = 1 ∧ d.getSy = 1 then []
             else [TPart.scale d.getSx d.getSy])) ∧
    (∀ d : Display ℝ, d.getAngle = Real.pi / 2 →
        build_transform Real.pi d =
          [TPart.translate d.getX d.getY, TPart.rotate 90] ++
            (if d.getSx = 1 ∧ d.getSy = 1 then []
             else [TPart.scale d.getSx d.getSy])) := by
  constructor
  · exact build_transform_eq Real.pi
  · intro d h
    rw [build_transform_eq Real.pi d, h]
    have hπ : Real.pi ≠ 0 := Real.pi_ne_zero
    have hne : Real.pi / 2 ≠ 0 := by positivity
    rw [if_neg hne]
    have h90 : Real.pi / 2 * 180 / Real.pi = 90 := by
      field_simp
      ring
    rw [h90]
    simp

/-- Witness for C2: a Display at (3, 4) rotated by pi over two radians. -/
theorem transform_order_witness :
    build_transform Real.pi
        ({ x := some 3, y := some 4, angle := some (Real.pi / 2) } : Display ℝ) =
      [TPart.translate 3 4, TPart.rotate 90] := by
  have h := transform_order.2
    { x := some 3, y := some 4, angle := some (Real.pi / 2) } rfl
  simpa [Display.getX, Display.getY, Display.getSx, Display.getSy] using h

end TransformProofs

section ShapeProofs

/-- C3: every mapped rectangle is centered on the local origin, its corner
at (-w/2, -h/2) with the given width and height, the corner-radius
attribute present exactly when the radius is positive; the concrete 10 by
4 rectangle at (5, 5) has local top-left (-5, -2), a translation by
(5, 5), and hence absolute top-left (0, 3). -/
theorem rect_centered :
    (∀ (piV : ℚ) (d : Display ℚ), ∃ rad fill stroke,
        render_rect piV d =
          Elem.rect (build_transform piV d) (-d.getWidth / 2) (-d.getHeight / 2)
            d.getWidth d.getHeight rad fill stroke ∧
          (rad.isSome ↔ 0 < d.getRadius)) ∧
    render_rect 0 rectExample =
      Elem.rect [TPart.translate 5 5] (-5) (-2) 10 4 none "none" none ∧
    -rectExample.getWidth / 2 + rectExample.getX = 0 ∧
    -rectExample.getHeight / 2 + rectExample.getY = 3 := by
  refine ⟨?_, ?_, ?_, ?_⟩
  case refine_2 =>
    norm_num [render_rect, rectExample, build_transform, get_fill_color,
      get_stroke_props, Display.getWidth, Display.getHeight,
      Display.getRadius, Display.getX, Display.getY, Display.getSx,
      Display.getSy, Display.getAngle]
  case refine_3 =>
    norm_num [rectExample, Display.getWidth, Display.getX]
  case refine_4 =>
    norm_num [rectExample, Display.getHeight, Display.getY]
  intro piV d
  refine ⟨if d.getRadius > 0 then some d.getRadius else none,
    get_fill_color d, get_stroke_props d, rfl, ?_⟩
  by_cases h : 0 < d.getRadius <;> simp [h]

/-- Witness for C3 applying the universal part at `rectExample`. -/
theorem rect_centered_witness :
    ∃ rad fill stroke,
      render_rect (0 : ℚ) rectExample =
        Elem.rect (build_transform 0 rectExample) (-rectExample.getWidth / 2)
          (-rectExample.getHeight / 2) rectExample.getWidth
          rectExample.getHeight rad fill stroke ∧
        (rad.isSome ↔ 0 < rectExample.getRadius) :=
  rect_centered.1 0 rectExample

/-- C4: a line Display whose stroke is absent or invisible still maps to a
line element, with the substituted default stroke color and unit width,
running from the local origin to (x2, y2); a Display of kind LINE always
produces an element at the dispatch. -/
theorem line_default_stroke :
    ∀ (piV : ℚ) (d : Display ℚ),
      (d.getType = "LINE" → renderByType piV d = some (render_line piV d)) ∧
      (get_stroke_props d = none →
        render_line piV d =
          Elem.line (build_transform piV d) 0 0 ((d.endPoint.getD {}).x.getD 0)
            ((d.endPoint.getD {}).y.getD 0) "#000000" 1) := by
  intro piV d
  constructor
  · intro h
    simp [renderByType, h]
  · intro h
    simp [render_line, h]

/-- Witness for C4 at `lineExample`, which has no stroke sub-dict. -/
theorem line_default_stroke_witness :
    renderByType (0 : ℚ) lineExample = some (render_line 0 lineExample) ∧
    render_line (0 : ℚ) lineExample =
      Elem.line [TPart.translate 0 0] 0 0 7 8 "#000000" 1 := by
  have h := line_default_stroke (0 : ℚ) lineExample
  refine ⟨h.1 (by decide), ?_⟩
  rw [h.2 (by decide)]
  decide

end ShapeProofs

section SortProofs

/-- C5: the visible Displays are drawn in ascending zOrder (an absent
zOrder counting as 0): the sort output restricted to visible Displays has
nondecreasing keys, is a permutation of the input, is stable (the
Displays of any fixed key keep their original relative order), and the
concrete example zOrder 5, zOrder 1, unset sorts to unset, 1, 5. -/
theorem zorder_sort :
    (∀ ds : List (Display ℚ),
        ((sortDisplays ds).filter (fun d => d.getVisible)).Pairwise
          (fun a b => a.getZOrder ≤ b.getZOrder)) ∧
    (∀ ds : List (Display ℚ), List.Perm (sortDisplays ds) ds) ∧
    (∀ (ds : List (Display ℚ)) (k : Int),
        (sortDisplays ds).filter (fun d => d.getZOrder = k) =
          ds.filter (fun d => d.getZOrder = k)) ∧
    sortDisplays [dz5, dz1, dzNone] = [dzNone, dz1, dz5] := by
  letI r : Display ℚ → Display ℚ → Prop := fun a b => a.getZOrder ≤ b.getZOrder
  letI : IsTotal (Display ℚ) r := ⟨fun a b => le_total _ _⟩
  letI : IsTrans (Display ℚ) r := ⟨fun a b c hab hbc => le_trans hab hbc⟩
  refine ⟨?_, ?_, ?_, by decide⟩
  · intro ds
    exact List.Pairwise.sublist (List.filter_sublist _)
      (List.sorted_insertionSort r ds)
  · intro ds
    exact List.perm_insertionSort r ds
  · intro ds k
    have hself : (ds.filter (fun d => d.getZOrder = k)).filter
        (fun d => d.getZOrder = k) = ds.filter (fun d => d.getZOrder = k) :=
      List.filter_eq_self.mpr fun a ha => (List.mem_filter.mp ha).2
    have hpair : (ds.filter (fun d => d.getZOrder = k)).Pairwise r := by
      apply List.pairwise_of_forall_mem_list
      intro a ha b hb
      have ha' : a.getZOrder = k := by
        simpa using (List.mem_filter.mp ha).2
      have hb' : b.getZOrder = k := by
        simpa using (List.mem_filter.mp hb).2
      show a.getZOrder ≤ b.getZOrder
      rw [ha', hb']
    have hsub : List.Sublist (ds.filter (fun d => d.getZOrder = k))
        (sortDisplays ds) :=
      List.sublist_insertionSort hpair (List.filter_sublist ds)
    have hsub2 : List.Sublist (ds.filter (fun d => d.getZOrder = k))
        ((sortDisplays ds).filter (fun d => d.getZOrder = k)) := by
      have := hsub.filter (fun d => decide (d.getZOrder = k))
      rwa [hself] at this
    have hperm : List.Perm ((sortDisplays ds).filter (fun d => d.getZOrder = k))
        (ds.filter (fun d => d.getZOrder = k)) :=
      (List.perm_insertionSort r ds).filter _
    exact (hsub2.eq_of_length hperm.length_eq.symm).symm

/-- Witness for C5: stability instantiated at the example list and key 5. -/
theorem zorder_sort_witness :
    (sortDisplays [dz5, dz1, dzNone]).filter (fun d => d.getZOrder = 5) =
      [dz5, dz1, dzNone].filter (fun d => d.getZOrder = 5) :=
  zorder_sort.2.2.1 [dz5, dz1, dzNone] 5

end SortProofs

section CanvasProofs

variable {α : Type} [LinearOrderedField α] [FloorRing α]

lemma collectElements_append
    (render : Display α → Except String (Option (Elem α)))
    (l₁ l₂ : List (Display α)) :
    collectElements render (l₁ ++ l₂) =
      collectElements render l₁ ++ collectElements render l₂ := by
  induction l₁ with
  | nil => simp [collectElements]
  | cons d ds ih =>
    by_cases hv : d.getVisible = true
    · simp only [List.cons_append, collectElements, hv, if_true]
      cases hr : render d with
      | ok o => cases o <;> simp [ih]
      | error e => simp [ih]
    · simp [collectElements, hv, ih]

lemma collectElements_error
    (render : Display α → Except String (Option (Elem α)))
    (d : Display α) (ds : List (Display α)) (msg : String)
    (h : render d = .error msg) :
    collectElements render (d :: ds) = collectElements render ds := by
  by_cases hv : d.getVisible = true <;> simp [collectElements, hv, h]

lemma computeBBox_invisible :
    ∀ ds : List (Display α), (∀ d ∈ ds, d.getVisible = false) →
      computeBBox ds = none := by
  intro ds
  induction ds with
  | nil => intro _; rfl
  | cons d ds ih =>
    intro h
    have hd : d.getVisible = false := h d (List.mem_cons_self d ds)
    have hstep : bboxStep (none : Option (α × α × α × α)) d = none := by
      simp [bboxStep, hd]
    show List.foldl bboxStep none (d :: ds) = none
    rw [List.foldl_cons, hstep]
    exact ih fun x hx => h x (List.mem_cons_of_mem _ hx)

/-- C6: a canvas in which no Display is visible (including an empty
canvas) produces no output document, and so does a canvas whose element
collection comes out empty (every visible Display mapping to nothing). -/
theorem no_visible_no_output :
    ∀ (piV : ℚ) (c : Canvas ℚ) (i : Nat),
      ((∀ d ∈ c.displays, d.getVisible = false) →
        convert_canvas_to_svg piV c i = none) ∧
      (collectElements (fun d => .ok (renderByType piV d))
          (sortDisplays c.displays) = [] →
        convert_canvas_to_svg piV c i = none) := by
  intro piV c i
  constructor
  · intro h
    unfold convert_canvas_to_svg
    by_cases he : c.displays.isEmpty
    · simp [he]
    · simp [he, computeBBox_invisible _ h]
  · intro h
    unfold convert_canvas_to_svg
    by_cases he : c.displays.isEmpty
    · simp [he]
    · cases hb : computeBBox c.displays with
      | none => simp [he, hb]
      | some q =>
        obtain ⟨a, b, cc, e⟩ := q
        simp [he, hb, h]

/-- Witness for C6 at the all-invisible canvas `cInvis`. -/
theorem no_visible_no_output_witness :
    convert_canvas_to_svg (0 : ℚ) cInvis 0 = none :=
  (no_visible_no_output 0 cInvis 0).1 (by decide)

/-- C9: a failure raised while rendering one shape is confined to that
shape: the canvas loop still processes everything before and after it,
the failing shape contributing no element; and an unrecognized shape kind
produces no output at the dispatch (it is skipped, not an error). -/
theorem shape_failure_isolated :
    (∀ (render : Display ℚ → Except String (Option (Elem ℚ)))
        (pre post : List (Display ℚ)) (d : Display ℚ) (msg : String),
        render d = .error msg →
        collectElements render (pre ++ d :: post) =
          collectElements render pre ++ collectElements render post) ∧
    (∀ (piV : ℚ) (d : Display ℚ),
        d.getType ∉ (["PATH", "RECT", "LINE", "BITMAP", "TEXT"] : List String) →
        renderByType piV d = none) := by
  constructor
  · intro render pre post d msg h
    rw [collectElements_append, collectElements_error render d post msg h]
  · intro piV d h
    simp only [List.mem_cons, List.not_mem_nil, or_false, not_or] at h
    obtain ⟨h1, h2, h3, h4, h5⟩ := h
    simp [renderByType, h1, h2, h3, h4, h5]

/-- Witness for C9: a renderer failing on every shape, and the
unrecognized kind CIRCLE. -/
theorem shape_failure_isolated_witness :
    collectElements
        (fun _ => (Except.error "boom" : Except String (Option (Elem ℚ))))
        ([rectExample] ++ unknownExample :: [rectExample]) =
      collectElements
          (fun _ => (Except.error "boom" : Except String (Option (Elem ℚ))))
          [rectExample] ++
        collectElements
          (fun _ => (Except.error "boom" : Except String (Option (Elem ℚ))))
          [rectExample] ∧
    renderByType (0 : ℚ) unknownExample = none :=
  ⟨shape_failure_isolated.1 _ [rectExample] [rectExample] unknownExample
      "boom" rfl,
    shape_failure_isolated.2 0 unknownExample (by decide)⟩

/-- C10: a Display without a `visible` key is treated as visible
everywhere: the visibility getter yields true, the bounding-box step
includes it, and the canvas loop renders it exactly like a Display with
an explicit true flag; whereas an explicit false flag excludes it from
both the bounding box and the element list. -/
theorem missing_visible_defaults_true :
    ∀ d : Display ℚ, d.visible = none →
      d.getVisible = true ∧
      ({ d with visible := some false } : Display ℚ).getVisible = false ∧
      (∀ s, bboxStep s d = bboxCore s d) ∧
      (∀ s, bboxStep s ({ d with visible := some false } : Display ℚ) = s) ∧
      (∀ (piV : ℚ) (ds : List (Display ℚ)),
        collectElements (fun x => .ok (renderByType piV x)) (d :: ds) =
          collectElements (fun x => .ok (renderByType piV x))
            ({ d with visible := some true } :: ds)) ∧
      (∀ (piV : ℚ) (ds : List (Display ℚ)),
        collectElements (fun x => .ok (renderByType piV x))
            ({ d with visible := some false } :: ds) =
          collectElements (fun x => .ok (renderByType piV x)) ds) := by
  intro d h
  have hv : d.getVisible = true := by
    rw [Display.getVisible, h]
    rfl
  refine ⟨hv, rfl, ?_, ?_, ?_, ?_⟩
  · intro s
    simp [bboxStep, hv]
  · intro s
    have : ({ d with visible := some false } : Display ℚ).getVisible = false := rfl
    simp [bboxStep, this]
  · intro piV ds
    have hv2 : ({ d with visible := some true } : Display ℚ).getVisible = true := rfl
    have hr : renderByType piV ({ d with visible := some true } : Display ℚ) =
        renderByType piV d := rfl
    simp only [collectElements, hv, hv2, hr, if_true]
  · intro piV ds
    have hv3 : ({ d with visible := some false } : Display ℚ).getVisible = false := rfl
    simp [collectElements, hv3]

/-- Witness for C10 at `rectExample`, whose visible key is absent. -/
theorem missing_visible_defaults_true_witness :
    Display.getVisible rectExample = true :=
  (missing_visible_defaults_true rectExample rfl).1

end CanvasProofs

section ViewportProofs

variable {α : Type} [LinearOrderedField α] [FloorRing α]

lemma foldl_bboxCore_some (l : List (Display α)) :
    ∀ q, l.foldl bboxCore (some q) = some (l.foldl bboxUpd q) := by
  induction l with
  | nil => intro q; rfl
  | cons d ds ih =>
    intro q
    rw [List.foldl_cons, List.foldl_cons]
    exact ih (bboxUpd q d)

lemma computeBBox_filter (ds : List (Display α)) :
    computeBBox ds = (ds.filter fun d => d.getVisible).foldl bboxCore none := by
  suffices h : ∀ s, List.foldl bboxStep s ds =
      (ds.filter fun d => d.getVisible).foldl bboxCore s from h none
  induction ds with
  | nil => intro s; rfl
  | cons d ds ih =>
    intro s
    by_cases hv : d.getVisible = true
    · rw [List.foldl_cons, List.filter_cons_of_pos hv, List.foldl_cons]
      have : bboxStep s d = bboxCore s d := by simp [bboxStep, hv]
      rw [this]
      exact ih _
    · rw [List.foldl_cons, List.filter_cons_of_neg (by simpa using hv)]
      have : bboxStep s d = s := by simp [bboxStep, hv]
      rw [this]
      exact ih _

lemma foldl_bboxUpd_components (l : List (Display α)) :
    ∀ q : α × α × α × α,
      l.foldl bboxUpd q =
        (l.foldl (fun a d => min a (d.getX - halfW d)) q.1,
         l.foldl (fun a d => min a (d.getY - halfH d)) q.2.1,
         l.foldl (fun a d => max a (d.getX + halfW d)) q.2.2.1,
         l.foldl (fun a d => max a (d.getY + halfH d)) q.2.2.2) := by
  induction l with
  | nil => intro q; rfl
  | cons d ds ih =>
    intro q
    rw [List.foldl_cons, ih (bboxUpd q d)]
    rfl

lemma computeBBox_minmax (ds : List (Display α)) (a b c e : α)
    (h : computeBBox ds = some (a, b, c, e)) :
    ((ds.filter fun d => d.getVisible).map fun d => d.getX - halfW d).min? =
        some a ∧
      ((ds.filter fun d => d.getVisible).map fun d => d.getY - halfH d).min? =
        some b ∧
      ((ds.filter fun d => d.getVisible).map fun d => d.getX + halfW d).max? =
        some c ∧
      ((ds.filter fun d => d.getVisible).map fun d => d.getY + halfH d).max? =
        some e := by
  rw [computeBBox_filter] at h
  cases hvis : ds.filter fun d => d.getVisible with
  | nil =>
    rw [hvis] at h
    exact absurd h (by simp)
  | cons v rest =>
    rw [hvis, List.foldl_cons] at h
    have hcore : bboxCore (none : Option (α × α × α × α)) v =
        some (v.getX - halfW v, v.getY - halfH v,
              v.getX + halfW v, v.getY + halfH v) := rfl
    rw [hcore, foldl_bboxCore_some, foldl_bboxUpd_components] at h
    simp only [Option.some.injEq, Prod.mk.injEq] at h
    obtain ⟨h1, h2, h3, h4⟩ := h
    refine ⟨?_, ?_, ?_, ?_⟩
    · rw [List.map_cons, List.min?_cons', List.foldl_map]
      exact congrArg some h1
    · rw [List.map_cons, List.min?_cons', List.foldl_map]
      exact congrArg some h2
    · rw [List.map_cons, List.max?_cons', List.foldl_map]
      exact congrArg some h3
    · rw [List.map_cons, List.max?_cons', List.foldl_map]
      exact congrArg some h4

/-- C7: when a canvas yields an output document, its viewport is exactly
the box whose sides are the min/max over the visible Displays of
x minus/plus (w|sx|/2 + 1) and y minus/plus (h|sy|/2 + 1), padded by the fixed
2-unit padding on every side (so the width/height gain 4); the bound uses
no rotation data. -/
theorem viewport_formula (piV : ℚ) (c : Canvas ℚ) (i : Nat) (doc : SvgDoc ℚ)
    (mx my mX mY : ℚ)
    (hdoc : convert_canvas_to_svg piV c i = some doc)
    (hmx : ((c.displays.filter fun d => d.getVisible).map
        fun d => d.getX - halfW d).min? = some mx)
    (hmy : ((c.displays.filter fun d => d.getVisible).map
        fun d => d.getY - halfH d).min? = some my)
    (hMx : ((c.displays.filter fun d => d.getVisible).map
        fun d => d.getX + halfW d).max? = some mX)
    (hMy : ((c.displays.filter fun d => d.getVisible).map
        fun d => d.getY + halfH d).max? = some mY) :
    doc.minX = mx - 2 ∧ doc.minY = my - 2 ∧
      doc.viewW = mX - mx + 4 ∧ doc.viewH = mY - my + 4 := by
  simp only [convert_canvas_to_svg] at hdoc
  split at hdoc
  · exact absurd hdoc (by simp)
  · split at hdoc
    · exact absurd hdoc (by simp)
    · next mnx mny mxx mxy hbb =>
      obtain ⟨h1, h2, h3, h4⟩ := computeBBox_minmax c.displays mnx mny mxx mxy hbb
      have e1 : mnx = mx := Option.some.inj (h1.symm.trans hmx)
      have e2 : mny = my := Option.some.inj (h2.symm.trans hmy)
      have e3 : mxx = mX := Option.some.inj (h3.symm.trans hMx)
      have e4 : mxy = mY := Option.some.inj (h4.symm.trans hMy)
      split at hdoc
      · exact absurd hdoc (by simp)
      · injection hdoc with hd
        subst hd
        refine ⟨?_, ?_, ?_, ?_⟩
        · show mnx - 2 = mx - 2
          rw [e1]
        · show mny - 2 = my - 2
          rw [e2]
        · show mxx + 2 - (mnx - 2) = mX - mx + 4
          rw [e1, e3]
          ring
        · show mxy + 2 - (mny - 2) = mY - my + 4
          rw [e2, e4]
          ring

/-- Witness for C7 at the one-rectangle canvas `cOne`: extents
(-1, 2, 11, 8), padded viewport (-3, 0) with size 16 by 10. -/
theorem viewport_formula_witness :
    docOne.minX = -1 - 2 ∧ docOne.minY = 2 - 2 ∧
      docOne.viewW = 11 - -1 + 4 ∧ docOne.viewH = 8 - 2 + 4 := by
  have ht : rectExample.getType = "RECT" := rfl
  have hv : rectExample.getVisible = true := rfl
  have hrect : renderByType (0 : ℚ) rectExample =
      some (Elem.rect [TPart.translate 5 5] (-5) (-2) 10 4 none "none" none) := by
    rw [renderByType, if_neg (by rw [ht]; decide), if_pos ht]
    norm_num [render_rect, rectExample, build_transform, get_fill_color,
      get_stroke_props, Display.getWidth, Display.getHeight,
      Display.getRadius, Display.getX, Display.getY, Display.getSx,
      Display.getSy, Display.getAngle]
  have hsort : sortDisplays cOne.displays = [rectExample] := by
    simp [sortDisplays, cOne, List.insertionSort, List.orderedInsert]
  have hcoll : collectElements (fun d => .ok (renderByType (0 : ℚ) d))
      (sortDisplays cOne.displays) =
      [Elem.rect [TPart.translate 5 5] (-5) (-2) 10 4 none "none" none] := by
    rw [hsort]
    simp [collectElements, hv, hrect]
  have hstep : bboxStep (none : Option (ℚ × ℚ × ℚ × ℚ)) rectExample =
      bboxCore none rectExample := by
    simp [bboxStep, hv]
  have hbb : computeBBox cOne.displays = some (-1, 2, 11, 8) := by
    show List.foldl bboxStep none [rectExample] = _
    rw [List.foldl_cons, hstep, List.foldl_nil]
    norm_num [bboxCore, halfW, halfH, rectExample, Display.getX,
      Display.getY, Display.getWidth, Display.getHeight, Display.getSx,
      Display.getSy]
  apply viewport_formula 0 cOne 0 docOne (-1) 2 11 8
  · simp only [convert_canvas_to_svg, hbb, hcoll]
    norm_num [cOne, docOne]
  · norm_num [cOne, rectExample, halfW, halfH, Display.getVisible,
      Display.getX, Display.getWidth, Display.getSx, List.min?]
  · norm_num [cOne, rectExample, halfW, halfH, Display.getVisible,
      Display.getY, Display.getHeight, Display.getSy, List.min?]
  · norm_num [cOne, rectExample, halfW, halfH, Display.getVisible,
      Display.getX, Display.getWidth, Display.getSx, List.max?]
  · norm_num [cOne, rectExample, halfW, halfH, Display.getVisible,
      Display.getY, Display.getHeight, Display.getSy, List.max?]

end ViewportProofs

end XcsToSvg
